import Mathlib

/-!
Shallow embedding of the Stateright consensus simulation
(`src/Stateright_Sim/src/lib.rs` and `src/Stateright_Sim/src/main.rs`).

Process identities (`stateright::actor::Id`) are modelled as `Nat`; the
`HashSet<Id>` of received votes is modelled as a `Finset Nat`; the actor
output buffer (`Out<Self>`) is modelled as the list of `(recipient, message)`
pairs emitted by a single call of the transition function.
-/

namespace StaterightSim

/-- Rust `Value`: possible values nodes can agree on (`lib.rs`, enum `Value`). -/
inductive Value where
  | V0
  | V1
  | V2
  deriving DecidableEq, Repr, Inhabited

/-- Rust `NodeRole`: a node's state in the consensus protocol (`lib.rs`, enum `NodeRole`). -/
inductive NodeRole where
  | Follower
  | Candidate
  | Leader
  | Decided
  deriving DecidableEq, Repr, Inhabited

/-- Rust `ConsensusMsg`: messages exchanged between nodes (`lib.rs`, enum `ConsensusMsg`). -/
inductive ConsensusMsg where
  | Propose (value : Value)
  | Vote (value : Value)
  | Commit (value : Value)
  deriving DecidableEq, Repr

/-- Rust `ConsensusState`: state maintained by each consensus node
(`lib.rs`, struct `ConsensusState`). `votes_received` is a `HashSet<Id>`,
modelled as a finite set of identities. -/
structure ConsensusState where
  role : NodeRole
  proposed_value : Option Value
  votes_received : Finset Nat
  decided_value : Option Value
  deriving DecidableEq

/-- Rust `ConsensusActor`: the actor implementing the protocol
(`lib.rs`, struct `ConsensusActor`). -/
structure ConsensusActor where
  peer_ids : List Nat
  quorum_size : Nat
  deriving DecidableEq, Repr

/-- Rust `ConsensusActor::new`: quorum is `(peer_ids.len() / 2) + 1`. -/
def ConsensusActor.new (peer_ids : List Nat) : ConsensusActor :=
  { peer_ids := peer_ids, quorum_size := peer_ids.length / 2 + 1 }

/-- Rust `ConsensusActor::has_quorum`: `votes.len() >= self.quorum_size`. -/
def ConsensusActor.has_quorum (a : ConsensusActor) (votes : Finset Nat) : Bool :=
  decide (a.quorum_size ≤ votes.card)

/-- Rust `ConsensusActor::broadcast`: send `msg` to every peer except ourselves,
in `peer_ids` order. -/
def ConsensusActor.broadcast (a : ConsensusActor) (my_id : Nat) (msg : ConsensusMsg) :
    List (Nat × ConsensusMsg) :=
  (a.peer_ids.filter (fun p => p ≠ my_id)).map (fun p => (p, msg))

/-- Rust `Actor::on_start` for `ConsensusActor`: the initial per-process state. -/
def ConsensusActor.on_start : ConsensusState :=
  { role := NodeRole.Follower
    proposed_value := none
    votes_received := ∅
    decided_value := none }

/-- Rust `Actor::on_msg` for `ConsensusActor` (`lib.rs` lines 127-173): the pure
state-transition reducer. Returns the new state together with the list of
`(recipient, message)` pairs written to the output buffer. -/
def ConsensusActor.on_msg (a : ConsensusActor) (id : Nat) (state : ConsensusState)
    (src : Nat) (msg : ConsensusMsg) : ConsensusState × List (Nat × ConsensusMsg) :=
  match msg with
  | ConsensusMsg.Propose value =>
      -- Follower receives a proposal
      if state.role = NodeRole.Follower ∧ state.proposed_value = none then
        ({ state with proposed_value := some value }, [(src, ConsensusMsg.Vote value)])
      else
        (state, [])
  | ConsensusMsg.Vote value =>
      -- Candidate collects votes
      if state.role = NodeRole.Candidate then
        if state.proposed_value = some value then
          let votes := insert src state.votes_received
          if a.has_quorum votes then
            ({ state with votes_received := votes, role := NodeRole.Leader },
             a.broadcast id (ConsensusMsg.Commit value))
          else
            ({ state with votes_received := votes }, [])
        else
          (state, [])
      else
        (state, [])
  | ConsensusMsg.Commit value =>
      -- Any node can receive commit and decide
      if state.decided_value = none then
        ({ state with decided_value := some value, role := NodeRole.Decided }, [])
      else
        (state, [])

/-- Rust `check_agreement` (`lib.rs` lines 182-195): all nodes that decide must
decide the same value. -/
def check_agreement (states : List ConsensusState) : Bool :=
  let decided := states.filterMap (fun s => s.decided_value)
  if decided.length < 2 then
    true
  else
    decided.all (fun v => v = decided.headI)

/-- Rust `check_validity` (`lib.rs` lines 197-201): every decided value, if any,
is one of the legal `Value` variants. -/
def check_validity (states : List ConsensusState) : Bool :=
  states.all (fun s =>
    s.decided_value.isNone ||
      (match s.decided_value with
       | some Value.V0 => true
       | some Value.V1 => true
       | some Value.V2 => true
       | none => false))

/-- Rust `has_decision` (`lib.rs` lines 203-206): at least one node has decided. -/
def has_decision (states : List ConsensusState) : Bool :=
  states.any (fun s => s.decided_value.isSome)

/-- The hash canonicalization step of `impl Hash for ConsensusState`
(`lib.rs` lines 55-65): the vote identities are collected and sorted before
being fed to the hasher. -/
def sortIds (l : List Nat) : List Nat :=
  l.insertionSort (fun a b => a ≤ b)

/-- The data actually fed to the hasher by `impl Hash for ConsensusState`,
in order: role, proposed_value, the sorted vote list, decided_value.
`votes` is the iteration sequence of the `HashSet`. -/
def stateHashInput (role : NodeRole) (pv : Option Value) (votes : List Nat)
    (dv : Option Value) : NodeRole × Option Value × List Nat × Option Value :=
  (role, pv, sortIds votes, dv)

/-! The 3-process model of `main.rs::run_checker`.

Three actors, each `ConsensusActor::new([0, 1, 2])`, and an unordered
non-duplicating network that starts empty
(`Network::new_unordered_nonduplicating([])`). A global configuration is the
triple of actor states plus the set of in-flight envelopes
`(sender, recipient, message)`; the only transition is delivering one
in-flight envelope to its recipient, removing it from flight and adding the
recipient's emissions. -/

/-- The actor configuration shared by the three processes of `run_checker`. -/
def actor3 : ConsensusActor := ConsensusActor.new [0, 1, 2]

/-- A global configuration of the 3-process model: the per-process states and
the set of in-flight `(sender, recipient, message)` envelopes. -/
structure GlobalConfig where
  states : Fin 3 → ConsensusState
  network : Finset (Nat × Nat × ConsensusMsg)

/-- The per-process states of a configuration as a list, matching
`state.actor_states` as passed to the property checkers. -/
def configStates (c : GlobalConfig) : List ConsensusState :=
  [c.states 0, c.states 1, c.states 2]

/-- Deliver the in-flight envelope `(src, dst, msg)`: run `on_msg` at the
recipient, replace its state, remove the envelope from flight and add the
emitted messages as new envelopes from `dst`. -/
def deliverAt (c : GlobalConfig) (src : Nat) (dst : Fin 3) (msg : ConsensusMsg) :
    GlobalConfig :=
  let r := actor3.on_msg dst.val (c.states dst) src msg
  { states := Function.update c.states dst r.1
    network := (c.network.erase (src, dst.val, msg)) ∪
      (r.2.map (fun pm => (dst.val, pm.1, pm.2))).toFinset }

/-- One step of the 3-process model: nondeterministically deliver any
in-flight envelope to its recipient. -/
inductive GStep : GlobalConfig → GlobalConfig → Prop where
  | deliver (c : GlobalConfig) (src : Nat) (dst : Fin 3) (msg : ConsensusMsg)
      (hmem : (src, dst.val, msg) ∈ c.network) :
      GStep c (deliverAt c src dst msg)

/-- The initial configuration of `run_checker`: all processes as produced by
`on_start`, and an empty network. -/
def initConfig : GlobalConfig :=
  { states := fun _ => ConsensusActor.on_start, network := ∅ }

/-- A configuration is reachable if some finite sequence of deliveries leads
to it from the initial configuration. -/
def Reachable (c : GlobalConfig) : Prop :=
  Relation.ReflTransGen GStep initConfig c

/-- Run a list of `(sender, message)` deliveries through `on_msg` at one
process, threading the state. -/
def runMsgs (a : ConsensusActor) (id : Nat) (s : ConsensusState)
    (msgs : List (Nat × ConsensusMsg)) : ConsensusState :=
  msgs.foldl (fun st sm => (a.on_msg id st sm.1 sm.2).1) s

/-- Helper: a single `on_msg` step never clears or changes an already-set
`decided_value`. -/
theorem onMsg_decided_stable (a : ConsensusActor) (id : Nat) (s : ConsensusState)
    (src : Nat) (msg : ConsensusMsg) (v : Value) (h : s.decided_value = some v) :
    ((a.on_msg id s src msg).1).decided_value = some v := by
  cases msg <;> simp only [ConsensusActor.on_msg] <;> split_ifs <;> simp_all

/-- Helper: the predicate `Reachable` unfolds to the reflexive-transitive closure. -/
theorem reachable_iff (c : GlobalConfig) :
    Reachable c ↔ Relation.ReflTransGen GStep initConfig c := Iff.rfl

/-- Helper: with an empty initial network and no seed action, no delivery is
ever enabled, so the initial configuration is the only reachable one. -/
theorem reachable_eq_init (c : GlobalConfig) (h : Reachable c) : c = initConfig := by
  rw [reachable_iff] at h
  induction h with
  | refl => rfl
  | tail hsteps hstep ih =>
      subst ih
      cases hstep with
      | deliver src dst msg hmem => simp [initConfig] at hmem

/-- C5: on `Propose(v)`, a Follower with no proposed value records `v` and
votes back to the sender; in every other case the state is unchanged and
nothing is emitted. -/
theorem onMsg_propose_spec (a : ConsensusActor) (id : Nat) (s : ConsensusState)
    (src : Nat) (v : Value) :
    (s.role = NodeRole.Follower ∧ s.proposed_value = none →
      a.on_msg id s src (ConsensusMsg.Propose v) =
        ({ s with proposed_value := some v }, [(src, ConsensusMsg.Vote v)])) ∧
    (¬ (s.role = NodeRole.Follower ∧ s.proposed_value = none) →
      a.on_msg id s src (ConsensusMsg.Propose v) = (s, [])) := by
  constructor <;> intro h <;> simp only [ConsensusActor.on_msg] <;>
    first
      | rw [if_pos h]
      | rw [if_neg h]

/-- Witness for C5 at a concrete fresh Follower state. -/
theorem onMsg_propose_spec_witness :
    actor3.on_msg 0 ConsensusActor.on_start 1 (ConsensusMsg.Propose Value.V0) =
      ({ ConsensusActor.on_start with proposed_value := some Value.V0 },
       [(1, ConsensusMsg.Vote Value.V0)]) :=
  (onMsg_propose_spec actor3 0 ConsensusActor.on_start 1 Value.V0).1
    ⟨rfl, rfl⟩

/-- C4: on `Commit(v)`, an undecided process (whatever its role) decides `v`
and moves to `Decided`, emitting nothing; an already-decided process
ignores it. -/
theorem onMsg_commit_spec (a : ConsensusActor) (id : Nat) (s : ConsensusState)
    (src : Nat) (v : Value) :
    (s.decided_value = none →
      a.on_msg id s src (ConsensusMsg.Commit v) =
        ({ s with decided_value := some v, role := NodeRole.Decided }, [])) ∧
    (s.decided_value ≠ none →
      a.on_msg id s src (ConsensusMsg.Commit v) = (s, [])) := by
  constructor <;> intro h <;> simp only [ConsensusActor.on_msg] <;>
    first
      | rw [if_pos h]
      | rw [if_neg h]

/-- Witness for C4 at a concrete Candidate state with no decision. -/
theorem onMsg_commit_spec_witness :
    actor3.on_msg 0 (ConsensusState.mk NodeRole.Candidate none ∅ none) 1
        (ConsensusMsg.Commit Value.V1) =
      (ConsensusState.mk NodeRole.Decided none ∅ (some Value.V1), []) :=
  (onMsg_commit_spec actor3 0 (ConsensusState.mk NodeRole.Candidate none ∅ none)
      1 Value.V1).1 rfl

/-- C2: a set `decided_value` is write-once: no single delivery and no
delivery sequence at that process ever changes it. -/
theorem decided_write_once (a : ConsensusActor) (id : Nat) (s : ConsensusState)
    (v : Value) (h : s.decided_value = some v) :
    (∀ src msg, ((a.on_msg id s src msg).1).decided_value = some v) ∧
    (∀ msgs, (runMsgs a id s msgs).decided_value = some v) := by
  refine ⟨fun src msg => onMsg_decided_stable a id s src msg v h, fun msgs => ?_⟩
  induction msgs generalizing s with
  | nil => exact h
  | cons sm rest ih =>
      exact ih _ (onMsg_decided_stable a id s sm.1 sm.2 v h)

/-- Witness for C2 at a decided state fed a conflicting Commit. -/
theorem decided_write_once_witness :
    ((actor3.on_msg 0 (ConsensusState.mk NodeRole.Decided none ∅ (some Value.V0)) 1
        (ConsensusMsg.Commit Value.V1)).1).decided_value = some Value.V0 ∧
    (runMsgs actor3 0 (ConsensusState.mk NodeRole.Decided none ∅ (some Value.V0))
        [(1, ConsensusMsg.Commit Value.V1), (2, ConsensusMsg.Propose Value.V2)]).decided_value =
      some Value.V0 :=
  ⟨(decided_write_once actor3 0
      (ConsensusState.mk NodeRole.Decided none ∅ (some Value.V0)) Value.V0 rfl).1 1
      (ConsensusMsg.Commit Value.V1),
   (decided_write_once actor3 0
      (ConsensusState.mk NodeRole.Decided none ∅ (some Value.V0)) Value.V0 rfl).2
      [(1, ConsensusMsg.Commit Value.V1), (2, ConsensusMsg.Propose Value.V2)]⟩

/-- C10: no transition ever removes recorded votes: the output state's
`votes_received` always contains the input state's. -/
theorem votes_received_monotone (a : ConsensusActor) (id : Nat) (s : ConsensusState)
    (src : Nat) (msg : ConsensusMsg) :
    s.votes_received ⊆ ((a.on_msg id s src msg).1).votes_received := by
  cases msg <;> simp only [ConsensusActor.on_msg] <;> split_ifs <;>
    simp [Finset.subset_insert]

/-- The invariant of the data model: a set `decided_value` entails the
`Decided` role. -/
def DecidedRoleInv (s : ConsensusState) : Prop :=
  s.decided_value.isSome → s.role = NodeRole.Decided

/-- Helper: the reducer `on_msg` preserves `DecidedRoleInv`. -/
theorem onMsg_decidedRoleInv (a : ConsensusActor) (id : Nat) (s : ConsensusState)
    (src : Nat) (msg : ConsensusMsg) (h : DecidedRoleInv s) :
    DecidedRoleInv ((a.on_msg id s src msg).1) := by
  cases msg <;> simp only [ConsensusActor.on_msg] <;> split_ifs <;>
    simp_all [DecidedRoleInv]

/-- C9: the invariant `decided_value.is_some() ⇒ role == Decided` holds in the `on_start`
state, is preserved by every `on_msg` step from a state satisfying it, and
holds in every process state of every reachable configuration. -/
theorem decided_role_invariant :
    DecidedRoleInv ConsensusActor.on_start ∧
    (∀ (a : ConsensusActor) (id : Nat) (s : ConsensusState) (src : Nat)
        (msg : ConsensusMsg), DecidedRoleInv s →
        DecidedRoleInv ((a.on_msg id s src msg).1)) ∧
    (∀ c, Reachable c → ∀ i, DecidedRoleInv (c.states i)) := by
  refine ⟨fun h => by simp [ConsensusActor.on_start] at h, onMsg_decidedRoleInv, ?_⟩
  intro c hc i
  rw [reachable_eq_init c hc]
  intro h
  simp [initConfig, ConsensusActor.on_start] at h

/-- Witness for C9 at a decided Commit step and the initial configuration. -/
theorem decided_role_invariant_witness :
    DecidedRoleInv ((actor3.on_msg 0 ConsensusActor.on_start 1
        (ConsensusMsg.Commit Value.V0)).1) ∧
    DecidedRoleInv (initConfig.states 0) :=
  ⟨decided_role_invariant.2.1 actor3 0 ConsensusActor.on_start 1
      (ConsensusMsg.Commit Value.V0) (fun h => by simp [ConsensusActor.on_start] at h),
   decided_role_invariant.2.2 initConfig Relation.ReflTransGen.refl 0⟩

/-- C6: the constructed quorum is `⌊n/2⌋ + 1` (2 for n = 3, 3 for n = 5) and
`has_quorum` is exactly the comparison of the vote count against it. -/
theorem quorum_size_spec (ids : List Nat) (_h : 1 ≤ ids.length) :
    (ConsensusActor.new ids).quorum_size = ids.length / 2 + 1 ∧
    (ids.length = 3 → (ConsensusActor.new ids).quorum_size = 2) ∧
    (ids.length = 5 → (ConsensusActor.new ids).quorum_size = 3) ∧
    (∀ votes : Finset Nat,
      (ConsensusActor.new ids).has_quorum votes = true ↔
        (ConsensusActor.new ids).quorum_size ≤ votes.card) := by
  refine ⟨rfl, fun h3 => ?_, fun h5 => ?_, fun votes => ?_⟩
  · simp [ConsensusActor.new, h3]
  · simp [ConsensusActor.new, h5]
  · simp [ConsensusActor.has_quorum]

/-- Witness for C6 with three peers and a two-vote set. -/
theorem quorum_size_spec_witness :
    (ConsensusActor.new [0, 1, 2]).quorum_size = 2 ∧
    ((ConsensusActor.new [0, 1, 2]).has_quorum {0, 1} = true ↔
      (ConsensusActor.new [0, 1, 2]).quorum_size ≤ (({0, 1} : Finset Nat)).card) :=
  ⟨(quorum_size_spec [0, 1, 2] (by decide)).2.1 rfl,
   (quorum_size_spec [0, 1, 2] (by decide)).2.2.2 {0, 1}⟩

/-- C1: every reachable configuration of the 3-process `run_checker` model
satisfies the Agreement and Validity predicates. -/
theorem agreement_validity_reachable (c : GlobalConfig) (h : Reachable c) :
    check_agreement (configStates c) = true ∧
    check_validity (configStates c) = true := by
  rw [reachable_eq_init c h]
  constructor <;> rfl

/-- Witness for C1 at the initial configuration. -/
theorem agreement_validity_reachable_witness :
    check_agreement (configStates initConfig) = true ∧
    check_validity (configStates initConfig) = true :=
  agreement_validity_reachable initConfig Relation.ReflTransGen.refl

/-- Helper: the reducer `on_msg` never originates the `Candidate` role. -/
theorem onMsg_no_candidate (a : ConsensusActor) (id : Nat) (s : ConsensusState)
    (src : Nat) (msg : ConsensusMsg)
    (h : ((a.on_msg id s src msg).1).role = NodeRole.Candidate) :
    s.role = NodeRole.Candidate := by
  cases msg <;> simp only [ConsensusActor.on_msg] at h <;> split_ifs at h <;>
    simp_all

/-- C8: `on_msg` alone never makes a process `Candidate`, and with the empty
initial network and no seed action every reachable configuration still has
all processes as undecided Followers, an empty in-flight set, and the
Progress predicate unwitnessed while Agreement and Validity hold vacuously. -/
theorem no_seed_stasis :
    (∀ (a : ConsensusActor) (id : Nat) (s : ConsensusState) (src : Nat)
        (msg : ConsensusMsg), ((a.on_msg id s src msg).1).role = NodeRole.Candidate →
        s.role = NodeRole.Candidate) ∧
    (∀ c, Reachable c →
      (∀ i, (c.states i).role = NodeRole.Follower ∧ (c.states i).decided_value = none) ∧
      c.network = ∅ ∧
      has_decision (configStates c) = false ∧
      check_agreement (configStates c) = true ∧
      check_validity (configStates c) = true) := by
  refine ⟨onMsg_no_candidate, fun c hc => ?_⟩
  rw [reachable_eq_init c hc]
  exact ⟨fun i => ⟨rfl, rfl⟩, rfl, rfl, rfl, rfl⟩

/-- Witness for C8: a Candidate no-op step and the initial configuration. -/
theorem no_seed_stasis_witness :
    (ConsensusState.mk NodeRole.Candidate none ∅ none).role = NodeRole.Candidate ∧
    (initConfig.states 0).role = NodeRole.Follower ∧
    initConfig.network = ∅ ∧
    has_decision (configStates initConfig) = false :=
  ⟨no_seed_stasis.1 actor3 0 (ConsensusState.mk NodeRole.Candidate none ∅ none) 1
      (ConsensusMsg.Propose Value.V0) (by decide),
   (no_seed_stasis.2 initConfig Relation.ReflTransGen.refl).1 0 |>.1,
   (no_seed_stasis.2 initConfig Relation.ReflTransGen.refl).2.1,
   (no_seed_stasis.2 initConfig Relation.ReflTransGen.refl).2.2.1⟩

/-- Helper: the Vote arm when the message is ignored. -/
theorem onMsg_vote_ignored (a : ConsensusActor) (id : Nat) (s : ConsensusState)
    (src : Nat) (v : Value)
    (h : s.role ≠ NodeRole.Candidate ∨ s.proposed_value ≠ some v) :
    a.on_msg id s src (ConsensusMsg.Vote v) = (s, []) := by
  simp only [ConsensusActor.on_msg]
  rcases h with h | h
  · rw [if_neg h]
  · by_cases hc : s.role = NodeRole.Candidate
    · rw [if_pos hc, if_neg h]
    · rw [if_neg hc]

/-- Helper: the Vote arm when the vote is counted and quorum is reached. -/
theorem onMsg_vote_quorum (a : ConsensusActor) (id : Nat) (s : ConsensusState)
    (src : Nat) (v : Value) (hc : s.role = NodeRole.Candidate)
    (hp : s.proposed_value = some v)
    (hq : a.quorum_size ≤ (insert src s.votes_received).card) :
    a.on_msg id s src (ConsensusMsg.Vote v) =
      ({ s with votes_received := insert src s.votes_received, role := NodeRole.Leader },
       a.broadcast id (ConsensusMsg.Commit v)) := by
  simp only [ConsensusActor.on_msg]
  rw [if_pos hc, if_pos hp]
  simp [ConsensusActor.has_quorum, hq]

/-- Helper: the Vote arm when the vote is counted but quorum is not reached. -/
theorem onMsg_vote_noquorum (a : ConsensusActor) (id : Nat) (s : ConsensusState)
    (src : Nat) (v : Value) (hc : s.role = NodeRole.Candidate)
    (hp : s.proposed_value = some v)
    (hq : ¬ a.quorum_size ≤ (insert src s.votes_received).card) :
    a.on_msg id s src (ConsensusMsg.Vote v) =
      ({ s with votes_received := insert src s.votes_received }, []) := by
  simp only [ConsensusActor.on_msg]
  rw [if_pos hc, if_pos hp]
  simp [ConsensusActor.has_quorum, hq]

/-- Helper: the recipients of a `broadcast` are exactly the peers other than
the sender, in `peer_ids` order. -/
theorem broadcast_recipients (a : ConsensusActor) (my_id : Nat) (msg : ConsensusMsg) :
    (a.broadcast my_id msg).map Prod.fst = a.peer_ids.filter (fun q => q ≠ my_id) := by
  simp only [ConsensusActor.broadcast, List.map_map]
  have h : (Prod.fst ∘ fun p : Nat => (p, msg)) = id := rfl
  rw [h, List.map_id]

/-- Helper: an envelope is produced by `broadcast` exactly when it carries the
broadcast message to a peer other than the sender. -/
theorem broadcast_mem (a : ConsensusActor) (my_id : Nat) (msg : ConsensusMsg)
    (e : Nat × ConsensusMsg) :
    e ∈ a.broadcast my_id msg ↔ e.1 ∈ a.peer_ids ∧ e.1 ≠ my_id ∧ e.2 = msg := by
  cases e with
  | mk p m =>
      simp only [ConsensusActor.broadcast, List.mem_map, List.mem_filter]
      constructor
      · rintro ⟨q, ⟨hq, hqid⟩, heq⟩
        injection heq with h1 h2
        subst h1
        subst h2
        exact ⟨hq, by simpa using hqid, rfl⟩
      · rintro ⟨hp, hne, rfl⟩
        exact ⟨p, ⟨hp, by simpa using hne⟩, rfl⟩

/-- C3: on `Vote(v)`, a non-Candidate or a Candidate with a different
proposed value ignores the vote; otherwise the sender joins
`votes_received`, and exactly when the resulting count reaches the quorum
the process becomes Leader and emits one `Commit(v)` to every peer but
itself (nothing otherwise). -/
theorem onMsg_vote_spec (a : ConsensusActor) (id : Nat) (s : ConsensusState)
    (src : Nat) (v : Value) :
    (s.role ≠ NodeRole.Candidate ∨ s.proposed_value ≠ some v →
      a.on_msg id s src (ConsensusMsg.Vote v) = (s, [])) ∧
    (s.role = NodeRole.Candidate → s.proposed_value = some v →
      ((a.on_msg id s src (ConsensusMsg.Vote v)).1.votes_received =
          insert src s.votes_received) ∧
      (a.quorum_size ≤ (insert src s.votes_received).card →
        (a.on_msg id s src (ConsensusMsg.Vote v)).1.role = NodeRole.Leader ∧
        (a.on_msg id s src (ConsensusMsg.Vote v)).2 =
          a.broadcast id (ConsensusMsg.Commit v) ∧
        (a.peer_ids.Nodup →
          (((a.on_msg id s src (ConsensusMsg.Vote v)).2).map Prod.fst).Nodup) ∧
        (∀ e : Nat × ConsensusMsg,
          e ∈ (a.on_msg id s src (ConsensusMsg.Vote v)).2 ↔
            e.1 ∈ a.peer_ids ∧ e.1 ≠ id ∧ e.2 = ConsensusMsg.Commit v)) ∧
      (¬ a.quorum_size ≤ (insert src s.votes_received).card →
        (a.on_msg id s src (ConsensusMsg.Vote v)).1 =
          { s with votes_received := insert src s.votes_received } ∧
        (a.on_msg id s src (ConsensusMsg.Vote v)).2 = [])) := by
  refine ⟨onMsg_vote_ignored a id s src v, fun hc hp => ?_⟩
  by_cases hq : a.quorum_size ≤ (insert src s.votes_received).card
  · rw [onMsg_vote_quorum a id s src v hc hp hq]
    refine ⟨rfl, fun _ => ⟨rfl, rfl, fun hnd => ?_, broadcast_mem a id _⟩,
      fun h' => absurd hq h'⟩
    rw [broadcast_recipients]
    exact hnd.filter _
  · rw [onMsg_vote_noquorum a id s src v hc hp hq]
    exact ⟨rfl, fun h' => absurd h' hq, fun _ => ⟨rfl, rfl⟩⟩

/-- Witness for C3: a Candidate one vote short of quorum receives the
decisive vote and commits to both peers. -/
theorem onMsg_vote_spec_witness :
    ((actor3.on_msg 0 (ConsensusState.mk NodeRole.Candidate (some Value.V0) {1} none)
        2 (ConsensusMsg.Vote Value.V0)).1.votes_received =
      insert 2 ({1} : Finset Nat)) ∧
    ((actor3.on_msg 0 (ConsensusState.mk NodeRole.Candidate (some Value.V0) {1} none)
        2 (ConsensusMsg.Vote Value.V0)).1.role = NodeRole.Leader) ∧
    ((((actor3.on_msg 0 (ConsensusState.mk NodeRole.Candidate (some Value.V0) {1} none)
        2 (ConsensusMsg.Vote Value.V0)).2).map Prod.fst).Nodup) ∧
    ((1, ConsensusMsg.Commit Value.V0) ∈
        (actor3.on_msg 0 (ConsensusState.mk NodeRole.Candidate (some Value.V0) {1} none)
          2 (ConsensusMsg.Vote Value.V0)).2 ↔
      1 ∈ actor3.peer_ids ∧ 1 ≠ 0 ∧
        ConsensusMsg.Commit Value.V0 = ConsensusMsg.Commit Value.V0) := by
  have h := (onMsg_vote_spec actor3 0
    (ConsensusState.mk NodeRole.Candidate (some Value.V0) {1} none) 2 Value.V0).2
    rfl rfl
  exact ⟨h.1, (h.2.1 (by decide)).1, (h.2.1 (by decide)).2.2.1 (by decide),
    (h.2.1 (by decide)).2.2.2 (1, ConsensusMsg.Commit Value.V0)⟩

/-- C7: the hash canonicalization of `impl Hash for ConsensusState` is
independent of the iteration order of `votes_received`, and states with the
same vote identities compare equal. -/
theorem hash_order_independent (role : NodeRole) (pv dv : Option Value)
    (v1 v2 : List Nat) (h : v1.Perm v2) :
    stateHashInput role pv v1 dv = stateHashInput role pv v2 dv ∧
    ConsensusState.mk role pv v1.toFinset dv =
      ConsensusState.mk role pv v2.toFinset dv := by
  have hperm : List.Perm (sortIds v1) (sortIds v2) :=
    (List.perm_insertionSort _ v1).trans (h.trans (List.perm_insertionSort _ v2).symm)
  have hs1 : (sortIds v1).Sorted (fun a b : Nat => a ≤ b) :=
    List.sorted_insertionSort _ v1
  have hs2 : (sortIds v2).Sorted (fun a b : Nat => a ≤ b) :=
    List.sorted_insertionSort _ v2
  have hsort : sortIds v1 = sortIds v2 := List.eq_of_perm_of_sorted hperm hs1 hs2
  exact ⟨by simp [stateHashInput, hsort],
    by simp [List.toFinset_eq_of_perm v1 v2 h]⟩

/-- Witness for C7: the vote set `{0, 1}` inserted in either order. -/
theorem hash_order_independent_witness :
    stateHashInput NodeRole.Candidate none [0, 1] none =
      stateHashInput NodeRole.Candidate none [1, 0] none ∧
    ConsensusState.mk NodeRole.Candidate none ([0, 1] : List Nat).toFinset none =
      ConsensusState.mk NodeRole.Candidate none ([1, 0] : List Nat).toFinset none :=
  hash_order_independent NodeRole.Candidate none none [0, 1] [1, 0] (by decide)

end StaterightSim
